import Mathlib

/-!
Shallow embedding of the AStorageClient Python client
(`acapella/kv`: `Entry.py`, `Transaction.py`, `TransactionContext.py`,
`Session.py`, `utils/assertion.py`, `utils/http.py`).

Conventions of the embedding:
* Python strings used as key segments are modelled by their UTF-8 byte
  sequences (`List Nat`); error-message strings stay `String`.
* The HTTP transport is modelled by passing the server's response as an
  explicit argument.  Each operation returns the list of requests it issued,
  the state of the (in Python, mutated-in-place) object after the call, and
  either the returned value or the raised error (`Except`).
* Python `int` is `Int`; HTTP status codes are `Nat`.
-/

/-- Errors a client call can raise: `ValueError` from `utils/assertion.py`,
the five classes raised by `raise_if_error` in `utils/http.py`, Python's
`RuntimeError` raised by `TransactionContext.__aenter__` on re-entry and the
`AttributeError` a method call on `None` would raise in `__aexit__`. -/
inductive ClientError where
  | valueError (msg : String)
  | timeoutError
  | casError
  | transactionNotFoundError
  | transactionCompletedError
  | kvError (code : Nat)
  | runtimeError
  | attributeError
  deriving DecidableEq, Repr

/-- Is the outcome a locally raised `ValueError` (validation error)? -/
def is_validation_error {α : Type} : Except ClientError α → Bool
  | .error (.valueError _) => true
  | _ => false

/-- utils/http.py `raise_if_error`: translate a status code into success or a
raised error. -/
def raise_if_error (code : Nat) : Except ClientError Unit :=
  if code = 200 then .ok ()
  else if code = 408 then .error .timeoutError
  else if code = 409 then .error .casError
  else if code = 410 then .error .transactionNotFoundError
  else if code = 412 then .error .transactionCompletedError
  else .error (.kvError code)

/-- A key segment: the UTF-8 bytes of one Python `str` in the key list. -/
abbrev Segment := List Nat

/-- A key: `List[str]` in the Python source. -/
abbrev Key := List Segment

/-- utils/assertion.py `check_key_part`. -/
def check_key_part (part : Segment) : Except ClientError Unit :=
  if part.length = 0 then .error (.valueError "All key parts must not be empty")
  else .ok ()

/-- The `for part in key: check_key_part(part)` loop of `check_key`. -/
def check_key_parts : Key → Except ClientError Unit
  | [] => .ok ()
  | p :: ps =>
    match check_key_part p with
    | .error e => .error e
    | .ok _ => check_key_parts ps

/-- utils/assertion.py `check_key`. -/
def check_key (key : Key) : Except ClientError Unit :=
  if key.length = 0 then .error (.valueError "key must not be empty")
  else check_key_parts key

/-- utils/assertion.py `check_nrw`. -/
def check_nrw (n r w : Int) : Except ClientError Unit :=
  if n ≤ 0 then .error (.valueError "N parameter must be greater than zero")
  else if n > 127 then .error (.valueError "N parameter must be less than 128")
  else if r ≤ 0 then .error (.valueError "R parameter must be greater than zero")
  else if w ≤ 0 then .error (.valueError "W parameter must be greater than zero")
  else if r > n then .error (.valueError "R parameter must be less then or equal to N")
  else if w > n then .error (.valueError "W parameter must be less then or equal to N")
  else .ok ()

/-- Bytes `urllib.parse.quote` leaves unescaped with its default `safe` set:
ASCII letters, digits, `_`, `.`, `-`, `~` (the always-safe set) and `/`. -/
def quote_safe (b : Nat) : Bool :=
  (65 ≤ b && b ≤ 90) || (97 ≤ b && b ≤ 122) || (48 ≤ b && b ≤ 57) ||
  b == 95 || b == 46 || b == 45 || b == 126 || b == 47

/-- Uppercase hexadecimal digit byte for a value below 16. -/
def hex_digit (n : Nat) : Nat := if n < 10 then 48 + n else 55 + n

/-- Percent-encoding of one byte as done by `urllib.parse.quote`. -/
def quote_byte (b : Nat) : List Nat :=
  if quote_safe b then [b] else [37, hex_digit (b / 16), hex_digit (b % 16)]

/-- `urllib.parse.quote(part)` on the UTF-8 bytes of a segment. -/
def quote : Segment → List Nat
  | [] => []
  | b :: bs => quote_byte b ++ quote bs

/-- utils/http.py `key_to_str`: percent-encode every segment and join the
results with `:` (byte 58). -/
def key_to_str (key : Key) : List Nat :=
  List.intercalate [58] (key.map quote)

/-- HTTP method of a request issued by the client. -/
inductive Method where
  | get
  | put
  | post
  deriving DecidableEq, Repr

/-- URL paths built by the source's f-strings, with the key part already
rendered by `key_to_str`. -/
inductive UrlPath where
  | kvKey (k : List Nat)
  | kvKeyVersion (k : List Nat)
  | txBegin
  | txCommit (index : Int)
  | txRollback (index : Int)
  | txKeepAlive (index : Int)
  deriving DecidableEq, Repr

/-- Query parameters: name with value, `none` modelling Python `None`. -/
abbrev Params := List (String × Option Int)

/-- One HTTP request as issued through `AsyncSession`; `body` is the `json=`
payload of a PUT (`none` when the request carries no body). -/
structure Request (V : Type) where
  method : Method
  path : UrlPath
  params : Params
  body : Option (Option V)
  deriving DecidableEq, Repr

/-- The fields of a `/v2/kv/keys/{key}` GET response that `Entry.get` and
`Entry.listen` read: `status_code`, `int(body['version'])`,
`body.get('value')`. -/
structure EntryResponse (V : Type) where
  status : Nat
  version : Int
  value : Option V
  deriving DecidableEq, Repr

/-- The fields of a response whose body only yields `int(body['version'])`. -/
structure VersionResponse where
  status : Nat
  version : Int
  deriving DecidableEq, Repr

/-- The fields of the `/v2/tx` POST response: `status_code`,
`int(body['index'])`. -/
structure TxBeginResponse where
  status : Nat
  index : Int
  deriving DecidableEq, Repr

/-- Entry.py: the locally cached state of one key handle.  The `_session`
field is not modelled (the transport is passed per call). -/
structure Entry (V : Type) where
  key : Key
  version : Int
  value : Option V
  n : Int
  r : Int
  w : Int
  transaction : Option Int
  deriving DecidableEq, Repr

/-- Entry.py `__init__`: run `check_key` and `check_nrw`, then store the
fields.  Issues no request. -/
def Entry.init {V : Type} (key : Key) (version : Int) (value : Option V)
    (n r w : Int) (transaction : Option Int) : Except ClientError (Entry V) :=
  match check_key key with
  | .error e => .error e
  | .ok _ =>
    match check_nrw n r w with
    | .error e => .error e
    | .ok _ => .ok { key := key, version := version, value := value,
                     n := n, r := r, w := w, transaction := transaction }

/-- Entry.py `get`: GET the key, `raise_if_error`, then overwrite the cached
version and value from the body and return the value. -/
def Entry.get {V : Type} (e : Entry V) (resp : EntryResponse V) :
    List (Request V) × Entry V × Except ClientError (Option V) :=
  let req : Request V :=
    { method := .get, path := .kvKey (key_to_str e.key),
      params := [("n", some e.n), ("r", some e.r), ("w", some e.w),
                 ("transaction", e.transaction)],
      body := none }
  match raise_if_error resp.status with
  | .error err => ([req], e, .error err)
  | .ok _ =>
    ([req], { e with version := resp.version, value := resp.value },
     .ok resp.value)

/-- Entry.py `listen`: like `get` with `wait-version` (defaulting to the
cached version) and `wait-timeout` (the timeout's seconds, `none` when no
timeout was given) in the query. -/
def Entry.listen {V : Type} (e : Entry V) (wait_version : Option Int)
    (timeout_seconds : Option Int) (resp : EntryResponse V) :
    List (Request V) × Entry V × Except ClientError (Option V) :=
  let wv := wait_version.getD e.version
  let req : Request V :=
    { method := .get, path := .kvKey (key_to_str e.key),
      params := [("n", some e.n), ("r", some e.r), ("w", some e.w),
                 ("transaction", e.transaction), ("wait-version", some wv),
                 ("wait-timeout", timeout_seconds)],
      body := none }
  match raise_if_error resp.status with
  | .error err => ([req], e, .error err)
  | .ok _ =>
    ([req], { e with version := resp.version, value := resp.value },
     .ok resp.value)

/-- Entry.py `set`: PUT the new value, `raise_if_error`, then overwrite the
cached version from the body and return it.  The cached value is not
touched by the source. -/
def Entry.set {V : Type} (e : Entry V) (new_value : Option V)
    (resp : VersionResponse) :
    List (Request V) × Entry V × Except ClientError Int :=
  let req : Request V :=
    { method := .put, path := .kvKey (key_to_str e.key),
      params := [("n", some e.n), ("r", some e.r), ("w", some e.w),
                 ("transaction", e.transaction)],
      body := some new_value }
  match raise_if_error resp.status with
  | .error err => ([req], e, .error err)
  | .ok _ => ([req], { e with version := resp.version }, .ok resp.version)

/-- Entry.py `cas`: PUT the new value with `old-version` (defaulting to the
cached version), `raise_if_error`, then overwrite the cached version from
the body and return it.  The cached value is not touched by the source. -/
def Entry.cas {V : Type} (e : Entry V) (new_value : Option V)
    (old_version : Option Int) (resp : VersionResponse) :
    List (Request V) × Entry V × Except ClientError Int :=
  let ov := old_version.getD e.version
  let req : Request V :=
    { method := .put, path := .kvKey (key_to_str e.key),
      params := [("n", some e.n), ("r", some e.r), ("w", some e.w),
                 ("transaction", e.transaction), ("old-version", some ov)],
      body := some new_value }
  match raise_if_error resp.status with
  | .error err => ([req], e, .error err)
  | .ok _ => ([req], { e with version := resp.version }, .ok resp.version)

/-- Transaction.py: server-assigned index and the local completion flag. -/
structure Transaction where
  index : Int
  completed : Bool
  deriving DecidableEq, Repr

/-- Transaction.py `commit`: skipped entirely when `_completed` is set;
otherwise POST `/v2/tx/{index}/commit`, `raise_if_error`, then set the
flag.  `V` is the (unused) body type of the requests. -/
def Transaction.commit (V : Type) (t : Transaction) (status : Nat) :
    List (Request V) × Transaction × Except ClientError Unit :=
  if t.completed then ([], t, .ok ())
  else
    let req : Request V :=
      { method := .post, path := .txCommit t.index, params := [], body := none }
    match raise_if_error status with
    | .error err => ([req], t, .error err)
    | .ok _ => ([req], { t with completed := true }, .ok ())

/-- Transaction.py `rollback`: same guard and flag handling as `commit`,
POSTing `/v2/tx/{index}/rollback`. -/
def Transaction.rollback (V : Type) (t : Transaction) (status : Nat) :
    List (Request V) × Transaction × Except ClientError Unit :=
  if t.completed then ([], t, .ok ())
  else
    let req : Request V :=
      { method := .post, path := .txRollback t.index, params := [], body := none }
    match raise_if_error status with
    | .error err => ([req], t, .error err)
    | .ok _ => ([req], { t with completed := true }, .ok ())

/-- Transaction.py `keep_alive`: POST `/v2/tx/{index}/keep-alive` and
`raise_if_error`, with no completion-flag guard and no state change. -/
def Transaction.keep_alive (V : Type) (t : Transaction) (status : Nat) :
    List (Request V) × Transaction × Except ClientError Unit :=
  let req : Request V :=
    { method := .post, path := .txKeepAlive t.index, params := [], body := none }
  ([req], t, raise_if_error status)

/-- Transaction.py `entry`: construct an Entry bound to this transaction's
index; no request is issued. -/
def Transaction.entry {V : Type} (t : Transaction) (key : Key) (n r w : Int) :
    Except ClientError (Entry V) :=
  Entry.init key 0 none n r w (some t.index)

/-- Transaction.py `get_entry`: `entry` followed by `Entry.get`, returning
the fetched Entry. -/
def Transaction.get_entry {V : Type} (t : Transaction) (key : Key)
    (n r w : Int) (resp : EntryResponse V) :
    List (Request V) × Except ClientError (Entry V) :=
  match Transaction.entry t key n r w with
  | .error err => ([], .error err)
  | .ok ent =>
    let out := Entry.get ent resp
    (out.1, match out.2.2 with
            | .error err => .error err
            | .ok _ => .ok out.2.1)

/-- TransactionContext.py: holds the live Transaction between `__aenter__`
and `__aexit__` (`_tx`, `None` when idle). -/
structure TransactionContext where
  tx : Option Transaction
  deriving DecidableEq, Repr

/-- TransactionContext.py `__aenter__`: fail fast on re-entry, otherwise
POST `/v2/tx`, `raise_if_error`, store and return the new Transaction. -/
def TransactionContext.aenter (V : Type) (ctx : TransactionContext)
    (resp : TxBeginResponse) :
    List (Request V) × TransactionContext × Except ClientError Transaction :=
  match ctx.tx with
  | some _ => ([], ctx, .error .runtimeError)
  | none =>
    let req : Request V :=
      { method := .post, path := .txBegin, params := [], body := none }
    match raise_if_error resp.status with
    | .error err => ([req], ctx, .error err)
    | .ok _ =>
      let t : Transaction := { index := resp.index, completed := false }
      ([req], { tx := some t }, .ok t)

/-- TransactionContext.py `__aexit__`: commit when no exception is
propagating, rollback otherwise; the `self._tx = None` line runs only when
the completing call returned without raising.  `exc` models
`exc_type is not None`; `status` is the status of the commit/rollback
response when one is issued. -/
def TransactionContext.aexit (V : Type) (ctx : TransactionContext)
    (exc : Bool) (status : Nat) :
    List (Request V) × TransactionContext × Except ClientError Unit :=
  match ctx.tx with
  | none => ([], ctx, .error .attributeError)
  | some t =>
    let out := if exc then Transaction.rollback V t status
               else Transaction.commit V t status
    match out.2.2 with
    | .error err => (out.1, { tx := some out.2.1 }, .error err)
    | .ok _ => (out.1, { tx := none }, .ok ())

/-- Session.py `entry`: construct a non-transactional Entry; no request. -/
def Session.entry {V : Type} (key : Key) (n r w : Int) :
    Except ClientError (Entry V) :=
  Entry.init key 0 none n r w none

/-- Session.py `get_entry`: construct a non-transactional Entry, then
`Entry.get` it. -/
def Session.get_entry {V : Type} (key : Key) (n r w : Int)
    (resp : EntryResponse V) : List (Request V) × Except ClientError (Entry V) :=
  match Entry.init key 0 none n r w none with
  | .error err => ([], .error err)
  | .ok ent =>
    let out := Entry.get ent resp
    (out.1, match out.2.2 with
            | .error err => .error err
            | .ok _ => .ok out.2.1)

/-- Session.py `get_version`: GET `/v2/kv/keys/{key}/version` with n, r, w
and return `int(body['version'])`.  The source performs no key or quorum
validation here. -/
def Session.get_version (V : Type) (key : Key) (n r w : Int)
    (resp : VersionResponse) : List (Request V) × Except ClientError Int :=
  let req : Request V :=
    { method := .get, path := .kvKeyVersion (key_to_str key),
      params := [("n", some n), ("r", some r), ("w", some w)],
      body := none }
  ([req], match raise_if_error resp.status with
          | .error err => .error err
          | .ok _ => .ok resp.version)

/-- Session.py `transaction_manual`: POST `/v2/tx` and wrap the returned
index in a fresh Transaction. -/
def Session.transaction_manual (V : Type) (resp : TxBeginResponse) :
    List (Request V) × Except ClientError Transaction :=
  let req : Request V :=
    { method := .post, path := .txBegin, params := [], body := none }
  ([req], match raise_if_error resp.status with
          | .error err => .error err
          | .ok _ => .ok { index := resp.index, completed := false })

/-- Value of an uppercase hexadecimal digit byte (inverse of `hex_digit`). -/
def unhex_digit (c : Nat) : Nat := if c < 58 then c - 48 else c - 55

/-- Left inverse of `quote`: decode `%XX` escapes, copy every other byte. -/
def unquote : List Nat → List Nat
  | [] => []
  | b :: rest =>
    if b = 37 then
      match rest with
      | hi :: lo :: rest2 => (unhex_digit hi * 16 + unhex_digit lo) :: unquote rest2
      | _ => []
    else b :: unquote rest

theorem raise_if_error_eq_ok (code : Nat) (u : Unit) :
    raise_if_error code = .ok u ↔ code = 200 := by
  unfold raise_if_error
  split_ifs with h1 h2 h3 h4 h5 <;> simp_all

theorem raise_if_error_of_ne (code : Nat) (h : code ≠ 200) :
    ∃ err, raise_if_error code = .error err := by
  unfold raise_if_error
  split_ifs with h1 h2 h3 h4 h5
  · exact absurd h1 h
  all_goals exact ⟨_, rfl⟩

theorem raise_if_error_cases (code : Nat) :
    raise_if_error code = .ok () ∨
    raise_if_error code = .error .timeoutError ∨
    raise_if_error code = .error .casError ∨
    raise_if_error code = .error .transactionNotFoundError ∨
    raise_if_error code = .error .transactionCompletedError ∨
    raise_if_error code = .error (.kvError code) := by
  unfold raise_if_error
  split_ifs <;> simp

/-- C4: the status-to-condition mapping of `raise_if_error` is exact —
200 returns success, 408 raises the timeout condition, 409 the CAS-conflict
condition, 410 transaction-not-found, 412 transaction-already-completed,
and every other code a generic `KvError` carrying that code. -/
theorem c4_status_condition_mapping :
    raise_if_error 200 = .ok () ∧
    raise_if_error 408 = .error .timeoutError ∧
    raise_if_error 409 = .error .casError ∧
    raise_if_error 410 = .error .transactionNotFoundError ∧
    raise_if_error 412 = .error .transactionCompletedError ∧
    ∀ code : Nat, code ≠ 200 → code ≠ 408 → code ≠ 409 → code ≠ 410 →
      code ≠ 412 → raise_if_error code = .error (.kvError code) := by
  refine ⟨rfl, rfl, rfl, rfl, rfl, ?_⟩
  intro code h1 h2 h3 h4 h5
  simp [raise_if_error, h1, h2, h3, h4, h5]

/-- Witness for C4 at concrete status codes. -/
theorem c4_status_condition_mapping_witness :
    raise_if_error 500 = .error (.kvError 500) :=
  c4_status_condition_mapping.2.2.2.2.2 500 (by decide) (by decide) (by decide)
    (by decide) (by decide)

/-- C6: once a Transaction is locally completed, `commit` and `rollback`
issue no request, raise no error and leave the state unchanged. -/
theorem c6_completed_noop :
    ∀ (V : Type) (t : Transaction) (status : Nat), t.completed = true →
    Transaction.commit V t status = ([], t, .ok ()) ∧
    Transaction.rollback V t status = ([], t, .ok ()) := by
  intro V t status h
  constructor <;> simp [Transaction.commit, Transaction.rollback, h]

/-- Witness for C6 on a completed transaction and a failing status. -/
theorem c6_completed_noop_witness :
    Transaction.commit String { index := 7, completed := true } 500 =
      ([], { index := 7, completed := true }, .ok ()) ∧
    Transaction.rollback String { index := 7, completed := true } 500 =
      ([], { index := 7, completed := true }, .ok ()) :=
  c6_completed_noop String { index := 7, completed := true } 500 rfl

/-- C8: `keep_alive` always issues the keep-alive request — the local
completion flag is not consulted — leaves the Transaction unchanged and
surfaces the translated status unchanged, in particular the
transaction-not-found (410) and transaction-already-completed (412)
conditions. -/
theorem c8_keep_alive_not_blocked :
    ∀ (V : Type) (t : Transaction) (status : Nat),
    (Transaction.keep_alive V t status).1 =
      [{ method := .post, path := .txKeepAlive t.index, params := [],
         body := none }] ∧
    (Transaction.keep_alive V t status).2.1 = t ∧
    (Transaction.keep_alive V t status).2.2 = raise_if_error status ∧
    (Transaction.keep_alive V t 410).2.2 = .error .transactionNotFoundError ∧
    (Transaction.keep_alive V t 412).2.2 = .error .transactionCompletedError := by
  intro V t status
  exact ⟨rfl, rfl, rfl, rfl, rfl⟩

/-- C9: on a not-yet-completed Transaction, `commit`/`rollback` set the
completion flag exactly when the server answers 200; on any failing status
the flag stays unset and the state is unchanged, so the call can be
reissued. -/
theorem c9_flag_only_on_success :
    ∀ (V : Type) (t : Transaction) (status : Nat), t.completed = false →
    ((Transaction.commit V t status).2.1.completed = true ↔ status = 200) ∧
    ((Transaction.rollback V t status).2.1.completed = true ↔ status = 200) ∧
    (status ≠ 200 →
      (Transaction.commit V t status).2.1 = t ∧
      (Transaction.rollback V t status).2.1 = t ∧
      (∃ err, (Transaction.commit V t status).2.2 = .error err) ∧
      (∃ err, (Transaction.rollback V t status).2.2 = .error err)) := by
  intro V t status h
  rcases hre : raise_if_error status with err | u
  · have hne : status ≠ 200 := by
      intro h200
      rw [h200] at hre
      simp [raise_if_error] at hre
    refine ⟨?_, ?_, ?_⟩
    · simp [Transaction.commit, h, hre, hne]
    · simp [Transaction.rollback, h, hre, hne]
    · intro _
      refine ⟨?_, ?_, ⟨err, ?_⟩, ⟨err, ?_⟩⟩ <;>
        simp [Transaction.commit, Transaction.rollback, h, hre]
  · have h200 : status = 200 := (raise_if_error_eq_ok status u).mp hre
    subst h200
    refine ⟨?_, ?_, fun hne => absurd rfl hne⟩ <;>
      simp [Transaction.commit, Transaction.rollback, h, hre]

/-- Witness for C9: flag set on 200, untouched on 500. -/
theorem c9_flag_only_on_success_witness :
    (Transaction.commit String { index := 1, completed := false } 200).2.1.completed = true ∧
    (Transaction.commit String { index := 1, completed := false } 500).2.1 =
      { index := 1, completed := false } :=
  ⟨(c9_flag_only_on_success String { index := 1, completed := false } 200 rfl).1.mpr rfl,
   ((c9_flag_only_on_success String { index := 1, completed := false } 500 rfl).2.2
      (by decide)).1⟩

/-- C1 counterexample: a successful `set` overwrites only the cached
version.  Starting from a cached pair (version 1, value "a"), writing "b"
with a 200/version-2 response leaves the cached value at the stale "a":
the client now holds version 2 next to a value that does not belong to it,
contradicting the claim that set overwrites both halves of the cache. -/
theorem c1_counterexample :
    let e : Entry String := { key := [[107]], version := 1, value := some "a",
                              n := 3, r := 2, w := 2, transaction := none }
    let out := Entry.set e (some "b") { status := 200, version := 2 }
    out.2.2 = .ok 2 ∧ out.2.1.version = 2 ∧
    out.2.1.value = some "a" ∧ out.2.1.value ≠ some "b" := by
  exact ⟨rfl, rfl, rfl, by decide⟩

/-- C1 (amended): on a success response, `get` and `listen` overwrite both
the cached version and the cached value from the response, while `set` and
`cas` overwrite only the cached version and leave the cached value
unchanged (possibly stale). -/
theorem c1_amended_cache_refresh :
    ∀ (V : Type) (e : Entry V) (gr : EntryResponse V) (vr : VersionResponse)
      (nv : Option V) (wv tmo ov : Option Int),
    gr.status = 200 → vr.status = 200 →
    (Entry.get e gr).2.1.version = gr.version ∧
    (Entry.get e gr).2.1.value = gr.value ∧
    (Entry.listen e wv tmo gr).2.1.version = gr.version ∧
    (Entry.listen e wv tmo gr).2.1.value = gr.value ∧
    (Entry.set e nv vr).2.1.version = vr.version ∧
    (Entry.set e nv vr).2.1.value = e.value ∧
    (Entry.cas e nv ov vr).2.1.version = vr.version ∧
    (Entry.cas e nv ov vr).2.1.value = e.value := by
  intro V e gr vr nv wv tmo ov hg hv
  refine ⟨?_, ?_, ?_, ?_, ?_, ?_, ?_, ?_⟩ <;>
    simp [Entry.get, Entry.listen, Entry.set, Entry.cas, hg, hv, raise_if_error]

/-- Witness for C1 (amended) at a concrete entry and responses. -/
theorem c1_amended_cache_refresh_witness :
    (Entry.set ({ key := [[107]], version := 1, value := some "a", n := 3,
                  r := 2, w := 2, transaction := none } : Entry String)
        (some "b") { status := 200, version := 2 }).2.1.value = some "a" :=
  (c1_amended_cache_refresh String
    { key := [[107]], version := 1, value := some "a", n := 3, r := 2, w := 2,
      transaction := none }
    { status := 200, version := 5, value := some "c" }
    { status := 200, version := 2 } (some "b") none none none rfl
    rfl).2.2.2.2.2.1

/-- C7: `cas` with `old_version` omitted sends the cached version as
`old-version`; on a 409 response it raises the CAS-conflict condition and
leaves the cached version and value unchanged; on a 200 response it
overwrites the cached version from the response and returns it. -/
theorem c7_cas_semantics :
    ∀ (V : Type) (e : Entry V) (nv : Option V) (ov : Option Int)
      (resp : VersionResponse),
    (Entry.cas e nv none resp).1 =
      [{ method := .put, path := .kvKey (key_to_str e.key),
         params := [("n", some e.n), ("r", some e.r), ("w", some e.w),
                    ("transaction", e.transaction),
                    ("old-version", some e.version)],
         body := some nv }] ∧
    (resp.status = 409 →
      (Entry.cas e nv ov resp).2.1 = e ∧
      (Entry.cas e nv ov resp).2.2 = .error .casError) ∧
    (resp.status = 200 →
      (Entry.cas e nv ov resp).2.1 = { e with version := resp.version } ∧
      (Entry.cas e nv ov resp).2.2 = .ok resp.version) := by
  intro V e nv ov resp
  refine ⟨?_, ?_, ?_⟩
  · rcases hre : raise_if_error resp.status with err | u <;>
      simp [Entry.cas, hre]
  · intro h
    constructor <;> simp [Entry.cas, h, raise_if_error]
  · intro h
    constructor <;> simp [Entry.cas, h, raise_if_error]

/-- Witness for C7: a concrete CAS conflict leaves the entry untouched. -/
theorem c7_cas_semantics_witness :
    (Entry.cas ({ key := [[107]], version := 4, value := some "a", n := 3,
                  r := 2, w := 2, transaction := none } : Entry String)
        (some "b") none { status := 409, version := 0 }).2.2 =
      .error .casError :=
  ((c7_cas_semantics String
      { key := [[107]], version := 4, value := some "a", n := 3, r := 2,
        w := 2, transaction := none }
      (some "b") none { status := 409, version := 0 }).2.1 rfl).2

/-- C2 counterexample: the guarded block finished without a failure, the
commit call answered 500 — `__aexit__` propagates the error and the
`self._tx = None` line never runs, so the stored Transaction is NOT
cleared, contradicting the claim's "on every exit path ... the stored
Transaction is cleared". -/
theorem c2_counterexample :
    let ctx : TransactionContext :=
      { tx := some { index := 5, completed := false } }
    let out := TransactionContext.aexit String ctx false 500
    out.2.2 = .error (.kvError 500) ∧
    out.2.1 = { tx := some { index := 5, completed := false } } := by
  exact ⟨rfl, rfl⟩

/-- C2 (amended): on exit from the entered state, `commit` is invoked when
no failure is propagating and `rollback` otherwise; if the completing call
returns without raising (success response, or skipped because the
Transaction is already locally completed) the stored Transaction is cleared
and the context is idle again; but if the completing call itself raises,
the error propagates and the stored Transaction is left in place. -/
theorem c2_amended_aexit :
    ∀ (V : Type) (t : Transaction) (exc : Bool) (status : Nat),
    (exc = false → t.completed = false →
      (TransactionContext.aexit V { tx := some t } exc status).1 =
        [{ method := .post, path := .txCommit t.index, params := [],
           body := none }]) ∧
    (exc = true → t.completed = false →
      (TransactionContext.aexit V { tx := some t } exc status).1 =
        [{ method := .post, path := .txRollback t.index, params := [],
           body := none }]) ∧
    (status = 200 →
      (TransactionContext.aexit V { tx := some t } exc status).2.1.tx = none ∧
      (TransactionContext.aexit V { tx := some t } exc status).2.2 = .ok ()) ∧
    (t.completed = true →
      (TransactionContext.aexit V { tx := some t } exc status).1 = [] ∧
      (TransactionContext.aexit V { tx := some t } exc status).2.1.tx = none ∧
      (TransactionContext.aexit V { tx := some t } exc status).2.2 = .ok ()) ∧
    (t.completed = false → status ≠ 200 →
      (TransactionContext.aexit V { tx := some t } exc status).2.1.tx = some t ∧
      ∃ err,
        (TransactionContext.aexit V { tx := some t } exc status).2.2 =
          .error err) := by
  intro V t exc status
  refine ⟨?_, ?_, ?_, ?_, ?_⟩
  · intro hexc hc
    subst hexc
    rcases hre : raise_if_error status with err | u <;>
      simp [TransactionContext.aexit, Transaction.commit, hc, hre]
  · intro hexc hc
    subst hexc
    rcases hre : raise_if_error status with err | u <;>
      simp [TransactionContext.aexit, Transaction.rollback, hc, hre]
  · intro h200
    subst h200
    cases exc <;> cases hc : t.completed <;>
      constructor <;>
        simp [TransactionContext.aexit, Transaction.commit,
              Transaction.rollback, hc, raise_if_error]
  · intro hc
    cases exc <;>
      refine ⟨?_, ?_, ?_⟩ <;>
        simp [TransactionContext.aexit, Transaction.commit,
              Transaction.rollback, hc]
  · intro hc hne
    obtain ⟨err, hre⟩ := raise_if_error_of_ne status hne
    cases exc <;>
      refine ⟨?_, ⟨err, ?_⟩⟩ <;>
        simp [TransactionContext.aexit, Transaction.commit,
              Transaction.rollback, hc, hre]

/-- Witness for C2 (amended): successful commit on normal exit clears the
stored Transaction; a failing commit leaves it in place. -/
theorem c2_amended_aexit_witness :
    (TransactionContext.aexit String
        { tx := some { index := 1, completed := false } } false 200).2.1.tx =
      none ∧
    (TransactionContext.aexit String
        { tx := some { index := 1, completed := false } } false 500).2.1.tx =
      some { index := 1, completed := false } :=
  ⟨((c2_amended_aexit String { index := 1, completed := false } false
      200).2.2.1 rfl).1,
   ((c2_amended_aexit String { index := 1, completed := false } false
      500).2.2.2.2 rfl (by decide)).1⟩

theorem check_key_parts_ok_iff :
    ∀ key : Key, check_key_parts key = .ok () ↔ ∀ p ∈ key, p ≠ [] := by
  intro key
  induction key with
  | nil => simp [check_key_parts]
  | cons p ps ih =>
    by_cases hp : p = [] <;>
      simp [check_key_parts, check_key_part, List.length_eq_zero, hp, ih]

theorem check_key_ok_iff :
    ∀ key : Key, check_key key = .ok () ↔ (key ≠ [] ∧ ∀ p ∈ key, p ≠ []) := by
  intro key
  rcases eq_or_ne key [] with h | h
  · subst h
    simp [check_key]
  · simp [check_key, List.length_eq_zero, h, check_key_parts_ok_iff]

theorem check_key_parts_of_mem :
    ∀ key : Key, [] ∈ key →
    check_key_parts key = .error (.valueError "All key parts must not be empty") := by
  intro key h
  induction key with
  | nil => cases h
  | cons p ps ih =>
    by_cases hp : p = []
    · simp [check_key_parts, check_key_part, hp]
    · have hmem : ([] : Segment) ∈ ps := by
        rcases List.mem_cons.mp h with h1 | h2
        · exact absurd h1.symm hp
        · exact h2
      have hok : check_key_part p = .ok () := by
        simp [check_key_part, List.length_eq_zero, hp]
      simp [check_key_parts, hok, ih hmem]

theorem check_key_invalid :
    ∀ key : Key, (key = [] ∨ [] ∈ key) →
    ∃ m, check_key key = .error (.valueError m) := by
  intro key h
  rcases h with h | h
  · subst h
    exact ⟨_, rfl⟩
  · have hne : key ≠ [] := by
      intro hk
      subst hk
      cases h
    refine ⟨"All key parts must not be empty", ?_⟩
    simp [check_key, List.length_eq_zero, hne, check_key_parts_of_mem key h]

theorem check_nrw_ok_iff :
    ∀ n r w : Int, check_nrw n r w = .ok () ↔
      (1 ≤ n ∧ n ≤ 127 ∧ 1 ≤ r ∧ r ≤ n ∧ 1 ≤ w ∧ w ≤ n) := by
  intro n r w
  unfold check_nrw
  split_ifs <;> simp <;> omega

theorem check_nrw_ok_or_validation :
    ∀ n r w : Int, check_nrw n r w = .ok () ∨
      ∃ m, check_nrw n r w = .error (.valueError m) := by
  intro n r w
  unfold check_nrw
  split_ifs
  · exact .inr ⟨_, rfl⟩
  · exact .inr ⟨_, rfl⟩
  · exact .inr ⟨_, rfl⟩
  · exact .inr ⟨_, rfl⟩
  · exact .inr ⟨_, rfl⟩
  · exact .inr ⟨_, rfl⟩
  · exact .inl rfl

theorem check_key_ok_or_validation :
    ∀ key : Key, check_key key = .ok () ∨
      ∃ m, check_key key = .error (.valueError m) := by
  intro key
  by_cases h : check_key key = .ok ()
  · exact .inl h
  · refine .inr (check_key_invalid key ?_)
    by_contra hc
    push_neg at hc
    exact h ((check_key_ok_iff key).mpr
      ⟨hc.1, fun p hp hpe => hc.2 (hpe ▸ hp)⟩)

/-- Entry.init propagates a check_key failure unchanged. -/
theorem Entry.init_key_error {V : Type} (key : Key) (version : Int)
    (value : Option V) (n r w : Int) (tx : Option Int) (c : ClientError)
    (h : check_key key = .error c) :
    Entry.init key version value n r w tx = .error c := by
  simp [Entry.init, h]

/-- C3 counterexample: `Session.get_version` called with an empty key (zero
segments) raises no local ValidationError — it issues the GET request and
returns the server's answer, contradicting the claim that every listed
key-accepting operation validates the key before any network request. -/
theorem c3_counterexample :
    Session.get_version String [] 3 2 2 { status := 200, version := 7 } =
      ([{ method := .get, path := .kvKeyVersion [],
          params := [("n", some 3), ("r", some 2), ("w", some 2)],
          body := none }],
       .ok 7) := rfl

/-- C3 (amended): for a key with zero segments or an empty segment,
`Session.entry`, `Session.get_entry`, `Transaction.entry` and
`Transaction.get_entry` raise a local ValidationError and issue no request;
`Session.get_version` alone performs no local key validation — it always
issues its request and never raises a ValidationError. -/
theorem c3_amended_local_validation :
    ∀ (V : Type) (t : Transaction) (key : Key) (n r w : Int)
      (gr : EntryResponse V) (vr : VersionResponse),
    (key = [] ∨ [] ∈ key) →
    is_validation_error
      (Session.entry key n r w : Except ClientError (Entry V)) = true ∧
    ((Session.get_entry key n r w gr).1 = [] ∧
      is_validation_error (Session.get_entry key n r w gr).2 = true) ∧
    is_validation_error
      (Transaction.entry t key n r w : Except ClientError (Entry V)) = true ∧
    ((Transaction.get_entry t key n r w gr).1 = [] ∧
      is_validation_error (Transaction.get_entry t key n r w gr).2 = true) ∧
    ((Session.get_version V key n r w vr).1.length = 1 ∧
      is_validation_error (Session.get_version V key n r w vr).2 = false) := by
  intro V t key n r w gr vr h
  obtain ⟨m, hk⟩ := check_key_invalid key h
  have hs : Entry.init key 0 (none : Option V) n r w none =
      .error (.valueError m) :=
    Entry.init_key_error key 0 none n r w none _ hk
  have ht : Entry.init key 0 (none : Option V) n r w (some t.index) =
      .error (.valueError m) :=
    Entry.init_key_error key 0 none n r w (some t.index) _ hk
  refine ⟨?_, ⟨?_, ?_⟩, ?_, ⟨?_, ?_⟩, ?_, ?_⟩
  · simp [Session.entry, hs, is_validation_error]
  · simp [Session.get_entry, hs]
  · simp [Session.get_entry, hs, is_validation_error]
  · simp [Transaction.entry, ht, is_validation_error]
  · simp [Transaction.get_entry, Transaction.entry, ht]
  · simp [Transaction.get_entry, Transaction.entry, ht, is_validation_error]
  · simp [Session.get_version]
  · rcases raise_if_error_cases vr.status with hre | hre | hre | hre | hre | hre <;>
      simp [Session.get_version, hre, is_validation_error]

/-- Witness for C3 (amended) at the empty key. -/
theorem c3_amended_local_validation_witness :
    is_validation_error
      (Session.entry [] 3 2 2 : Except ClientError (Entry String)) = true ∧
    is_validation_error
      (Session.get_version String [] 3 2 2 { status := 200, version := 7 }).2 =
      false :=
  ⟨(c3_amended_local_validation String { index := 0, completed := false } []
      3 2 2 { status := 200, version := 0, value := none }
      { status := 200, version := 7 } (Or.inl rfl)).1,
   (c3_amended_local_validation String { index := 0, completed := false } []
      3 2 2 { status := 200, version := 0, value := none }
      { status := 200, version := 7 } (Or.inl rfl)).2.2.2.2.2⟩

/-- C5: Entry construction succeeds, storing exactly the given key, version,
value, quorum parameters and transaction reference, precisely when the key
is non-empty with non-empty segments and 1 ≤ n ≤ 127, 1 ≤ r ≤ n,
1 ≤ w ≤ n; otherwise it fails with a validation error.  `Entry.init` is a
pure function: no request is issued either way. -/
theorem c5_entry_init_validation :
    ∀ (V : Type) (key : Key) (version : Int) (value : Option V) (n r w : Int)
      (tx : Option Int),
    (Entry.init key version value n r w tx =
        .ok { key := key, version := version, value := value, n := n, r := r,
              w := w, transaction := tx }
      ↔ (key ≠ [] ∧ (∀ p ∈ key, p ≠ []) ∧
         1 ≤ n ∧ n ≤ 127 ∧ 1 ≤ r ∧ r ≤ n ∧ 1 ≤ w ∧ w ≤ n)) ∧
    (is_validation_error (Entry.init key version value n r w tx) = true
      ↔ ¬(key ≠ [] ∧ (∀ p ∈ key, p ≠ []) ∧
          1 ≤ n ∧ n ≤ 127 ∧ 1 ≤ r ∧ r ≤ n ∧ 1 ≤ w ∧ w ≤ n)) := by
  intro V key version value n r w tx
  have hiff : (key ≠ [] ∧ (∀ p ∈ key, p ≠ []) ∧
      1 ≤ n ∧ n ≤ 127 ∧ 1 ≤ r ∧ r ≤ n ∧ 1 ≤ w ∧ w ≤ n) ↔
      (check_key key = .ok () ∧ check_nrw n r w = .ok ()) := by
    rw [check_key_ok_iff, check_nrw_ok_iff]
    tauto
  rw [hiff]
  rcases check_key_ok_or_validation key with hk | ⟨m, hk⟩
  · rcases check_nrw_ok_or_validation n r w with hn | ⟨m2, hn⟩ <;>
      constructor <;> simp [Entry.init, hk, hn, is_validation_error]
  · constructor <;> simp [Entry.init, hk, is_validation_error]

/-- Witness for C5: a concrete valid construction and a concrete invalid
one. -/
theorem c5_entry_init_validation_witness :
    Entry.init [[107]] 0 (none : Option String) 3 2 2 none =
      .ok { key := [[107]], version := 0, value := none, n := 3, r := 2,
            w := 2, transaction := none } ∧
    is_validation_error
      (Entry.init [[107]] 0 (none : Option String) 3 2 4 none) = true :=
  ⟨(c5_entry_init_validation String [[107]] 0 none 3 2 2 none).1.mpr
      (by decide),
   (c5_entry_init_validation String [[107]] 0 none 3 2 4 none).2.mpr
      (by decide)⟩

theorem unhex_hex_digit (n : Nat) (h : n < 16) :
    unhex_digit (hex_digit n) = n := by
  unfold hex_digit unhex_digit
  split_ifs <;> omega

theorem quote_safe_ne_37 (b : Nat) (h : quote_safe b = true) : b ≠ 37 := by
  intro hb
  subst hb
  exact absurd h (by decide)

theorem hex_digit_ne_58 (n : Nat) : hex_digit n ≠ 58 := by
  unfold hex_digit
  split_ifs <;> omega

theorem unquote_cons_ne (b : Nat) (rest : List Nat) (h : b ≠ 37) :
    unquote (b :: rest) = b :: unquote rest := by
  rw [unquote.eq_def]
  simp [h]

theorem unquote_cons_37 (hi lo : Nat) (rest : List Nat) :
    unquote (37 :: hi :: lo :: rest) =
      (unhex_digit hi * 16 + unhex_digit lo) :: unquote rest := by
  rw [unquote.eq_def]
  simp

theorem unquote_quote (s : Segment) (h : ∀ b ∈ s, b < 256) :
    unquote (quote s) = s := by
  induction s with
  | nil => rfl
  | cons b bs ih =>
    have hb : b < 256 := h b (List.mem_cons_self b bs)
    have hbs : ∀ x ∈ bs, x < 256 := fun x hx => h x (List.mem_cons_of_mem b hx)
    by_cases hs : quote_safe b
    · have hb37 : b ≠ 37 := quote_safe_ne_37 b hs
      simp only [quote, quote_byte, if_pos hs, List.cons_append,
        List.nil_append]
      rw [unquote_cons_ne b (quote bs) hb37, ih hbs]
    · simp only [quote, quote_byte, if_neg hs, List.cons_append,
        List.nil_append]
      rw [unquote_cons_37, unhex_hex_digit (b / 16) (by omega),
        unhex_hex_digit (b % 16) (by omega), ih hbs]
      congr 1
      omega

theorem quote_ne_58 (s : Segment) : ∀ c ∈ quote s, c ≠ 58 := by
  induction s with
  | nil => simp [quote]
  | cons b bs ih =>
    intro c hc
    simp only [quote] at hc
    rcases List.mem_append.mp hc with hc1 | hc1
    · unfold quote_byte at hc1
      by_cases hs : quote_safe b
      · rw [if_pos hs] at hc1
        have hcb : c = b := List.mem_singleton.mp hc1
        subst hcb
        intro h58
        subst h58
        exact absurd hs (by decide)
      · rw [if_neg hs] at hc1
        have hc3 : c = 37 ∨ c = hex_digit (b / 16) ∨ c = hex_digit (b % 16) := by
          simpa using hc1
        rcases hc3 with h1 | h1 | h1
        · subst h1
          decide
        · subst h1
          exact hex_digit_ne_58 _
        · subst h1
          exact hex_digit_ne_58 _
    · exact ih c hc1

theorem map_unquote_quote (k : Key) (h : ∀ p ∈ k, ∀ b ∈ p, b < 256) :
    (k.map quote).map unquote = k := by
  induction k with
  | nil => rfl
  | cons p ps ih =>
    simp only [List.map_cons, List.cons.injEq]
    exact ⟨unquote_quote p (h p (List.mem_cons_self p ps)),
      ih (fun q hq => h q (List.mem_cons_of_mem p hq))⟩

/-- C10: `key_to_str` is injective on valid keys — non-empty lists of
non-empty segments (segments carry UTF-8 bytes, hence below 256) — because
percent-encoding escapes the `:` join separator (byte 58) wherever it
occurs inside a segment. -/
theorem c10_key_to_str_injective :
    ∀ k1 k2 : Key, k1 ≠ [] → k2 ≠ [] →
    (∀ p ∈ k1, p ≠ [] ∧ ∀ b ∈ p, b < 256) →
    (∀ p ∈ k2, p ≠ [] ∧ ∀ b ∈ p, b < 256) →
    key_to_str k1 = key_to_str k2 → k1 = k2 := by
  intro k1 k2 h1 h2 hv1 hv2 heq
  have hfree1 : ∀ l ∈ k1.map quote, 58 ∉ l := by
    intro l hl hmem
    obtain ⟨p, hp, rfl⟩ := List.mem_map.mp hl
    exact quote_ne_58 p 58 hmem rfl
  have hfree2 : ∀ l ∈ k2.map quote, 58 ∉ l := by
    intro l hl hmem
    obtain ⟨p, hp, rfl⟩ := List.mem_map.mp hl
    exact quote_ne_58 p 58 hmem rfl
  have hn1 : k1.map quote ≠ [] := by
    simpa using h1
  have hn2 : k2.map quote ≠ [] := by
    simpa using h2
  have hsplit : k1.map quote = k2.map quote := by
    have e1 := List.splitOn_intercalate (k1.map quote) 58 hfree1 hn1
    have e2 := List.splitOn_intercalate (k2.map quote) 58 hfree2 hn2
    rw [← e1, ← e2]
    unfold key_to_str at heq
    rw [heq]
  have hmap := congrArg (List.map unquote) hsplit
  rwa [map_unquote_quote k1 (fun p hp => (hv1 p hp).2),
    map_unquote_quote k2 (fun p hp => (hv2 p hp).2)] at hmap

/-- Witness for C10 at a concrete valid key containing the separator byte
inside a segment. -/
theorem c10_key_to_str_injective_witness :
    ([[97], [58, 98]] : Key) = [[97], [58, 98]] :=
  c10_key_to_str_injective [[97], [58, 98]] [[97], [58, 98]]
    (by decide) (by decide) (by decide) (by decide) rfl
